import Mathlib

/-!
# Verification of the snowflake ID generator (galenguyer/snowflake)

Shallow embedding of `src/lib.rs`.  Machine integers (`u64`, `u16`, `u8`)
are modelled as `Nat`, with an explicit `% 2 ^ 64` wherever the source's
`u64` arithmetic can wrap (the only such place is `last_time << 22`); the
`u8`/`u16`-typed fields are small enough that their shifts never wrap.
The wall clock is modelled by passing each operation the reading(s) that
`get_time_millis` returns during that call.
-/

set_option maxHeartbeats 1000000

/-- State of `SnowflakeGenerator` (src/lib.rs lines 6-12).  The `epoch`
field is not stored here: each operation receives its clock reading(s)
already expressed as milliseconds since the generator's epoch, which is
exactly the value `get_time_millis(self.epoch)` produces inside the
source.  Construction (`with_epoch`) is modelled separately below. -/
structure SnowflakeGenerator where
  last_time : Nat
  machine_id : Nat
  thread_id : Nat
  counter : Nat
deriving DecidableEq, Repr

/-- The return expression shared by `generate` (src/lib.rs 109-112) and
`generate_fuzzy` (143-146):
`self.last_time << 22 | ((self.machine_id as u64) << 17) |
((self.thread_id as u64) << 12) | (self.counter as u64)`,
read off the already-updated state.  The shift of `last_time` is a `u64`
shift, hence the `% 2 ^ 64`; `machine_id`, `thread_id`, `counter` come
from `u8`/`u16` fields, whose widened shifts stay far below `2 ^ 64`. -/
def SnowflakeGenerator.output (st : SnowflakeGenerator) : Nat :=
  (st.last_time <<< 22) % 2 ^ 64 ||| st.machine_id <<< 17 |||
    st.thread_id <<< 12 ||| st.counter

/-- `SnowflakeGenerator::generate` (src/lib.rs 89-113).  `now` is the
first clock reading of the call.  The busy-wait loop
`while now <= self.last_time { now = get_time_millis(self.epoch); }`
runs only when the incremented counter wraps to 0; `later` stands for the
reading the loop finally exits with (so in any real execution of the
loop, `later > self.last_time`; that fact is taken as a hypothesis in the
theorems that need it, it is the loop's exit condition). -/
def SnowflakeGenerator.generate (st : SnowflakeGenerator) (now later : Nat) :
    SnowflakeGenerator × Nat :=
  let st' :=
    if now = st.last_time then
      let c := (st.counter + 1) % 4096
      if c = 0 then
        { st with counter := c, last_time := later }
      else
        { st with counter := c, last_time := now }
    else
      { st with counter := 0, last_time := now }
  (st', st'.output)

/-- `SnowflakeGenerator::generate_fuzzy` (src/lib.rs 124-147).  One clock
reading `now`; on counter wrap the source does `now += 1` before
`self.last_time = now`. -/
def SnowflakeGenerator.generate_fuzzy (st : SnowflakeGenerator) (now : Nat) :
    SnowflakeGenerator × Nat :=
  let st' :=
    if now ≤ st.last_time then
      let c := (st.counter + 1) % 4096
      if c = 0 then
        { st with counter := c, last_time := now + 1 }
      else
        { st with counter := c, last_time := now }
    else
      { st with counter := 0, last_time := now }
  (st', st'.output)

/-- The `Snowflake` value type (src/lib.rs 14-26). -/
structure Snowflake where
  time : Nat
  machine_id : Nat
  thread_id : Nat
  counter : Nat
deriving DecidableEq, Repr

/-- `impl From<u64> for Snowflake` (src/lib.rs 150-159).  The `as u8` /
`as u16` casts are the `% 2 ^ 8` / `% 2 ^ 16` truncations (they are
no-ops on the masked values, which never exceed 31 resp. 4095). -/
def Snowflake.fromU64 (value : Nat) : Snowflake :=
  { time := value >>> 22
    machine_id := (value &&& 0x3E0000) >>> 17 % 2 ^ 8
    thread_id := (value &&& 0x1F000) >>> 12 % 2 ^ 8
    counter := (value &&& 0xFFF) % 2 ^ 16 }

/-- `impl From<Snowflake> for u64` (src/lib.rs 160-167): same expression
as `SnowflakeGenerator.output`, on the `Snowflake` fields. -/
def Snowflake.toU64 (value : Snowflake) : Nat :=
  (value.time <<< 22) % 2 ^ 64 ||| value.machine_id <<< 17 |||
    value.thread_id <<< 12 ||| value.counter

/-- `get_time_millis` (src/lib.rs 169-174).  `epoch` and `now` are
absolute times in nanoseconds since an arbitrary fixed reference point
(`UNIX_EPOCH` is reference 0).  `duration_since` fails — and `expect`
panics, modelled as `none` — exactly when `now < epoch`; otherwise
`as_millis` floors the duration to whole milliseconds and `as u64`
truncates to 64 bits. -/
def get_time_millis (epoch now : Nat) : Option Nat :=
  if now < epoch then none
  else some ((now - epoch) / 1000000 % 2 ^ 64)

/-- `SnowflakeGenerator::with_epoch` (src/lib.rs 68-78).  The two
`assert!` panics and the `get_time_millis` panic are modelled as `none`,
in source order (asserts first). -/
def SnowflakeGenerator.with_epoch (epoch now machine_id thread_id : Nat) :
    Option SnowflakeGenerator :=
  if machine_id < 32 then
    if thread_id < 32 then
      (get_time_millis epoch now).map fun t =>
        { last_time := t, machine_id := machine_id,
          thread_id := thread_id, counter := 0 }
    else none
  else none

/-- `SnowflakeGenerator::new` (src/lib.rs 44-46): `with_epoch(UNIX_EPOCH, ..)`,
i.e. epoch = reference point 0. -/
def SnowflakeGenerator.new (now machine_id thread_id : Nat) :
    Option SnowflakeGenerator :=
  SnowflakeGenerator.with_epoch 0 now machine_id thread_id

/-- `SnowflakeGenerator::generate_fuzzy` together with its internal clock
read: fails (panics) exactly when `get_time_millis` does. -/
def SnowflakeGenerator.generate_fuzzy_at (st : SnowflakeGenerator)
    (epoch now : Nat) : Option (SnowflakeGenerator × Nat) :=
  (get_time_millis epoch now).map fun t => st.generate_fuzzy t

/-- `SnowflakeGenerator::generate` together with its clock reads.  The
call reads the clock once up front; when the incremented counter wraps
to 0 the busy-wait loop keeps re-reading the clock, represented by the
loop's exit read `laterAbs` (in the other branches no further read
happens and the exit reading is irrelevant).  Every read goes through
`get_time_millis`, so a read taken before the epoch panics and the
whole call fails. -/
def SnowflakeGenerator.generate_at (st : SnowflakeGenerator)
    (epoch nowAbs laterAbs : Nat) : Option (SnowflakeGenerator × Nat) :=
  match get_time_millis epoch nowAbs with
  | none => none
  | some now =>
    if now = st.last_time ∧ (st.counter + 1) % 4096 = 0 then
      match get_time_millis epoch laterAbs with
      | none => none
      | some later => some (st.generate now later)
    else
      some (st.generate now now)

/-- One generation call, used to quantify over "either operation":
`blocking now later` is `generate` (with `later` the busy-wait exit
reading, unused unless the counter wraps), `fuzzy now` is
`generate_fuzzy`. -/
inductive GenCall where
  | blocking (now later : Nat)
  | fuzzy (now : Nat)
deriving DecidableEq, Repr

/-- Dispatch a `GenCall` to the corresponding source operation. -/
def SnowflakeGenerator.step (st : SnowflakeGenerator) :
    GenCall → SnowflakeGenerator × Nat
  | .blocking now later => st.generate now later
  | .fuzzy now => st.generate_fuzzy now

/-- All clock readings carried by a call are below `b`. -/
def GenCall.readingsBelow (c : GenCall) (b : Nat) : Prop :=
  match c with
  | .blocking now later => now < b ∧ later < b
  | .fuzzy now => now < b

instance (c : GenCall) (b : Nat) : Decidable (c.readingsBelow b) := by
  cases c <;> simp [GenCall.readingsBelow] <;> infer_instance

/-! ## Arithmetic form of the bit-packing -/

theorem lor_two_pow_add (k a b : Nat) (hb : b < 2 ^ k) :
    a * 2 ^ k ||| b = a * 2 ^ k + b := by
  rw [Nat.mul_comm a]
  exact (Nat.mul_add_lt_is_or hb a).symm

/-- The packed output, as plain arithmetic: the four fields occupy
disjoint bit ranges, and the 64-bit wrap truncates `last_time` to its
low 42 bits. -/
theorem SnowflakeGenerator.output_eq_add (st : SnowflakeGenerator)
    (hm : st.machine_id < 32) (hth : st.thread_id < 32)
    (hc : st.counter < 4096) :
    st.output = st.last_time % 2 ^ 42 * 2 ^ 22 + st.machine_id * 2 ^ 17 +
      st.thread_id * 2 ^ 12 + st.counter := by
  have h64 : (2 : Nat) ^ 64 = 2 ^ 42 * 2 ^ 22 := by norm_num
  have h1 : st.thread_id <<< 12 ||| st.counter =
      st.thread_id * 2 ^ 12 + st.counter := by
    rw [Nat.shiftLeft_eq]
    exact lor_two_pow_add 12 _ _ (by omega)
  have h2 : st.machine_id <<< 17 ||| (st.thread_id * 2 ^ 12 + st.counter) =
      st.machine_id * 2 ^ 17 + (st.thread_id * 2 ^ 12 + st.counter) := by
    rw [Nat.shiftLeft_eq]
    exact lor_two_pow_add 17 _ _ (by omega)
  have h3 : st.last_time % 2 ^ 42 * 2 ^ 22 |||
      (st.machine_id * 2 ^ 17 + (st.thread_id * 2 ^ 12 + st.counter)) =
      st.last_time % 2 ^ 42 * 2 ^ 22 +
        (st.machine_id * 2 ^ 17 + (st.thread_id * 2 ^ 12 + st.counter)) :=
    lor_two_pow_add 22 _ _ (by omega)
  calc st.output
      = st.last_time % 2 ^ 42 * 2 ^ 22 ||| st.machine_id <<< 17 |||
          st.thread_id <<< 12 ||| st.counter := by
        unfold SnowflakeGenerator.output
        rw [Nat.shiftLeft_eq st.last_time, h64, Nat.mul_mod_mul_right]
    _ = st.last_time % 2 ^ 42 * 2 ^ 22 + st.machine_id * 2 ^ 17 +
          st.thread_id * 2 ^ 12 + st.counter := by
        rw [Nat.or_assoc, Nat.or_assoc, h1, h2, h3]; omega

/-- Same arithmetic form for `Snowflake.toU64`. -/
theorem Snowflake.toU64_eq_add (s : Snowflake)
    (hm : s.machine_id < 32) (hth : s.thread_id < 32)
    (hc : s.counter < 4096) :
    s.toU64 = s.time % 2 ^ 42 * 2 ^ 22 + s.machine_id * 2 ^ 17 +
      s.thread_id * 2 ^ 12 + s.counter :=
  SnowflakeGenerator.output_eq_add
    ⟨s.time, s.machine_id, s.thread_id, s.counter⟩ hm hth hc

theorem shiftRight_and_distrib (v m k : Nat) :
    (v &&& m) >>> k = v >>> k &&& m >>> k := by
  apply Nat.eq_of_testBit_eq
  intro i
  simp [Nat.testBit_shiftRight, Nat.testBit_and]

/-- Decoding, as plain arithmetic: each field is the matching bit range,
and the `as u8`/`as u16` truncations are no-ops. -/
theorem Snowflake.fromU64_eq (v : Nat) :
    Snowflake.fromU64 v =
      ⟨v / 2 ^ 22, v / 2 ^ 17 % 2 ^ 5, v / 2 ^ 12 % 2 ^ 5, v % 2 ^ 12⟩ := by
  have h2 : (v &&& 0x3E0000) >>> 17 = v / 2 ^ 17 % 2 ^ 5 := by
    rw [show (0x3E0000 : Nat) = (2 ^ 5 - 1) <<< 17 by decide,
      shiftRight_and_distrib,
      show ((2 : Nat) ^ 5 - 1) <<< 17 >>> 17 = 2 ^ 5 - 1 from rfl,
      Nat.and_pow_two_sub_one_eq_mod, Nat.shiftRight_eq_div_pow]
  have h3 : (v &&& 0x1F000) >>> 12 = v / 2 ^ 12 % 2 ^ 5 := by
    rw [show (0x1F000 : Nat) = (2 ^ 5 - 1) <<< 12 by decide,
      shiftRight_and_distrib,
      show ((2 : Nat) ^ 5 - 1) <<< 12 >>> 12 = 2 ^ 5 - 1 from rfl,
      Nat.and_pow_two_sub_one_eq_mod, Nat.shiftRight_eq_div_pow]
  have h4 : v &&& 0xFFF = v % 2 ^ 12 := by
    rw [show (0xFFF : Nat) = 2 ^ 12 - 1 by norm_num,
      Nat.and_pow_two_sub_one_eq_mod]
  unfold Snowflake.fromU64
  rw [h2, h3, h4, Nat.shiftRight_eq_div_pow]
  simp only [Snowflake.mk.injEq]
  refine ⟨trivial, by omega, by omega, by omega⟩

/-- C2: for every machine_id and thread_id in [0,31], counter in
[0,4095] and time below `2 ^ 42`, decoding the 64-bit integer produced
by encoding the tuple reproduces exactly that tuple. -/
theorem Snowflake.decode_encode (t m th c : Nat) (ht : t < 2 ^ 42)
    (hm : m ≤ 31) (hth : th ≤ 31) (hc : c ≤ 4095) :
    Snowflake.fromU64 (Snowflake.toU64 ⟨t, m, th, c⟩) = ⟨t, m, th, c⟩ := by
  have he : (⟨t, m, th, c⟩ : Snowflake).toU64 =
      t % 2 ^ 42 * 2 ^ 22 + m * 2 ^ 17 + th * 2 ^ 12 + c := by
    simpa using Snowflake.toU64_eq_add ⟨t, m, th, c⟩ (show m < 32 by omega)
      (show th < 32 by omega) (show c < 4096 by omega)
  rw [he, Snowflake.fromU64_eq]
  simp only [Snowflake.mk.injEq]
  refine ⟨by omega, by omega, by omega, by omega⟩

theorem Snowflake.decode_encode_witness :
    Snowflake.fromU64 (Snowflake.toU64 ⟨5, 1, 2, 3⟩) = ⟨5, 1, 2, 3⟩ :=
  Snowflake.decode_encode 5 1 2 3 (by decide) (by decide) (by decide)
    (by decide)

/-- C10: on every 64-bit value, encode after decode is the identity, and
the decoded fields satisfy the field-width bounds. -/
theorem Snowflake.encode_decode (v : Nat) (hv : v < 2 ^ 64) :
    Snowflake.toU64 (Snowflake.fromU64 v) = v ∧
    (Snowflake.fromU64 v).time < 2 ^ 42 ∧
    (Snowflake.fromU64 v).machine_id ≤ 31 ∧
    (Snowflake.fromU64 v).thread_id ≤ 31 ∧
    (Snowflake.fromU64 v).counter ≤ 4095 := by
  rw [Snowflake.fromU64_eq]
  have he := Snowflake.toU64_eq_add
    ⟨v / 2 ^ 22, v / 2 ^ 17 % 2 ^ 5, v / 2 ^ 12 % 2 ^ 5, v % 2 ^ 12⟩
    (show v / 2 ^ 17 % 2 ^ 5 < 32 by omega)
    (show v / 2 ^ 12 % 2 ^ 5 < 32 by omega)
    (show v % 2 ^ 12 < 4096 by omega)
  simp only at he ⊢
  rw [he]
  refine ⟨by omega, by omega, by omega, by omega, by omega⟩

theorem Snowflake.encode_decode_witness :
    Snowflake.toU64 (Snowflake.fromU64 123456789123456789) =
      123456789123456789 :=
  (Snowflake.encode_decode 123456789123456789 (by decide)).1

/-- C7 counterexample: the claim asserts that re-encoding the decode of
`0xFFFFFFFFFFFFFFFF` does not reproduce the original value; in fact it
reproduces it exactly (decode keeps only 42 time bits, so no field
exceeds its width and the pack is lossless here). -/
theorem Snowflake.roundtrip_allones_counterexample :
    ¬ (Snowflake.fromU64 0xFFFFFFFFFFFFFFFF =
        ⟨0xFFFFFFFFFFFFFFFF >>> 22, 31, 31, 4095⟩ ∧
      Snowflake.toU64 (Snowflake.fromU64 0xFFFFFFFFFFFFFFFF) ≠
        0xFFFFFFFFFFFFFFFF) := by
  decide

/-- C7 amended: decoding `0xFFFFFFFFFFFFFFFF` yields
time = `0xFFFFFFFFFFFFFFFF >> 22`, machine_id = 31, thread_id = 31,
counter = 4095, and re-encoding that decoded Snowflake reproduces the
original value exactly. -/
theorem Snowflake.roundtrip_allones :
    Snowflake.fromU64 0xFFFFFFFFFFFFFFFF =
      ⟨0xFFFFFFFFFFFFFFFF >>> 22, 31, 31, 4095⟩ ∧
    Snowflake.toU64 (Snowflake.fromU64 0xFFFFFFFFFFFFFFFF) =
      0xFFFFFFFFFFFFFFFF := by
  decide

/-! ## Clock and construction -/

/-- C9: the current-time helper fails exactly when "now" is strictly
before the epoch, and otherwise returns the whole milliseconds elapsed;
every operation that reads the clock through it — construction, fuzzy
generation, and blocking generation with its busy-wait re-reads — fails
exactly when one of its reads happens strictly before the epoch. -/
theorem get_time_millis_spec (epoch now : Nat) :
    (get_time_millis epoch now = none ↔ now < epoch) ∧
    (epoch ≤ now → (now - epoch) / 1000000 < 2 ^ 64 →
      get_time_millis epoch now = some ((now - epoch) / 1000000)) ∧
    (∀ m th, m < 32 → th < 32 →
      (SnowflakeGenerator.with_epoch epoch now m th = none ↔ now < epoch)) ∧
    (∀ st : SnowflakeGenerator,
      st.generate_fuzzy_at epoch now = none ↔ now < epoch) ∧
    (∀ (st : SnowflakeGenerator) (laterAbs : Nat),
      st.generate_at epoch now laterAbs = none ↔
        now < epoch ∨ (epoch ≤ now ∧
          (now - epoch) / 1000000 % 2 ^ 64 = st.last_time ∧
          (st.counter + 1) % 4096 = 0 ∧ laterAbs < epoch)) := by
  unfold SnowflakeGenerator.with_epoch SnowflakeGenerator.generate_fuzzy_at
  unfold SnowflakeGenerator.generate_at
  unfold get_time_millis
  refine ⟨?_, ?_, ?_, ?_, ?_⟩
  · split_ifs with h <;> simp [h]
  · intro h hlt
    split_ifs with h2
    · omega
    · rw [Nat.mod_eq_of_lt hlt]
  · intro m th hm hth
    split_ifs with h1 h2 h3 <;> simp_all
  · intro st
    split_ifs with h <;> simp [h]
  · intro st laterAbs
    by_cases h1 : now < epoch
    · rw [if_pos h1]
      exact iff_of_true rfl (Or.inl h1)
    · rw [if_neg h1]
      dsimp only
      by_cases h2 : (now - epoch) / 1000000 % 2 ^ 64 = st.last_time ∧
          (st.counter + 1) % 4096 = 0
      · rw [if_pos h2]
        by_cases h3 : laterAbs < epoch
        · rw [if_pos h3]
          dsimp only
          exact iff_of_true rfl (Or.inr ⟨by omega, h2.1, h2.2, h3⟩)
        · rw [if_neg h3]
          dsimp only
          refine iff_of_false (by simp) ?_
          rintro (h | ⟨h, h4, h5, h6⟩)
          · exact h1 h
          · exact h3 h6
      · rw [if_neg h2]
        refine iff_of_false (by simp) ?_
        rintro (h | ⟨h, h4, h5, h6⟩)
        · exact h1 h
        · exact h2 ⟨h4, h5⟩

theorem get_time_millis_spec_witness :
    get_time_millis 5 3 = none ∧
    get_time_millis 2 3000002 = some 3 ∧
    SnowflakeGenerator.with_epoch 5 3 1 2 = none ∧
    (SnowflakeGenerator.generate_fuzzy_at ⟨0, 0, 0, 0⟩ 5 3 = none) ∧
    (SnowflakeGenerator.generate_at ⟨0, 0, 0, 0⟩ 5 3 9 = none) :=
  ⟨(get_time_millis_spec 5 3).1.mpr (by decide),
    (get_time_millis_spec 2 3000002).2.1 (by decide) (by decide),
    ((get_time_millis_spec 5 3).2.2.1 1 2 (by decide) (by decide)).mpr
      (by decide),
    ((get_time_millis_spec 5 3).2.2.2.1 ⟨0, 0, 0, 0⟩).mpr (by decide),
    ((get_time_millis_spec 5 3).2.2.2.2 ⟨0, 0, 0, 0⟩ 9).mpr
      (.inl (by decide))⟩

/-- C8: construction fails whenever machine_id ≥ 32 or thread_id ≥ 32,
and for in-range identifiers with the current time at or after the epoch
it succeeds, initializing counter to 0 and last_time to the milliseconds
elapsed since the epoch. -/
theorem with_epoch_spec (epoch now m th : Nat) :
    (32 ≤ m ∨ 32 ≤ th →
      SnowflakeGenerator.with_epoch epoch now m th = none ∧
      SnowflakeGenerator.new now m th = none) ∧
    (m ≤ 31 → th ≤ 31 → epoch ≤ now → (now - epoch) / 1000000 < 2 ^ 64 →
      SnowflakeGenerator.with_epoch epoch now m th =
        some ⟨(now - epoch) / 1000000, m, th, 0⟩) ∧
    SnowflakeGenerator.new now m th =
      SnowflakeGenerator.with_epoch 0 now m th := by
  refine ⟨?_, ?_, rfl⟩
  · intro h
    unfold SnowflakeGenerator.new SnowflakeGenerator.with_epoch
    split_ifs <;> simp_all <;> omega
  · intro hm hth hnow hrep
    have hmod : (now - epoch) / 1000000 % 2 ^ 64 = (now - epoch) / 1000000 :=
      Nat.mod_eq_of_lt hrep
    unfold SnowflakeGenerator.with_epoch get_time_millis
    split_ifs with h1 h2 h3 <;> try omega
    rw [hmod]
    rfl

theorem with_epoch_spec_witness :
    SnowflakeGenerator.with_epoch 0 7 32 0 = none ∧
    SnowflakeGenerator.with_epoch 2 3000002 1 2 =
      some ⟨3, 1, 2, 0⟩ :=
  ⟨((with_epoch_spec 0 7 32 0).1 (by omega)).1,
    (with_epoch_spec 2 3000002 1 2).2.1 (by decide) (by decide) (by decide)
      (by decide)⟩

/-! ## The fuzzy counter-wrap and last_time monotonicity -/

/-- C5 counterexample: from last_time = 100, counter = 4095, a fuzzy
call with clock reading 50 wraps the counter and stores last_time = 51,
not 100 + 1 as the claim states. -/
theorem generate_fuzzy_wrap_counterexample :
    (SnowflakeGenerator.generate_fuzzy ⟨100, 0, 0, 4095⟩ 50).1.last_time
      = 51 ∧
    (SnowflakeGenerator.generate_fuzzy ⟨100, 0, 0, 4095⟩ 50).1.last_time
      ≠ 100 + 1 := by
  decide

/-- C5 amended: when generate_fuzzy is called with a reading
now ≤ last_time and counter = 4095 (so the increment wraps to 0), the
new last_time stored is the clock reading plus one millisecond,
`now + 1` — which is one beyond the previous last_time exactly when
`now = last_time` — and the time field encoded in the returned ID is
`(now + 1) % 2 ^ 42` (the 42-bit field wraps when `now + 1` reaches
`2 ^ 42`). -/
theorem generate_fuzzy_wrap (st : SnowflakeGenerator) (now : Nat)
    (hnow : now ≤ st.last_time) (hc : st.counter = 4095)
    (hm : st.machine_id < 32) (hth : st.thread_id < 32) :
    (st.generate_fuzzy now).1.last_time = now + 1 ∧
    (Snowflake.fromU64 (st.generate_fuzzy now).2).time =
      (now + 1) % 2 ^ 42 ∧
    (now = st.last_time → (st.generate_fuzzy now).1.last_time =
      st.last_time + 1) := by
  have hstep : (st.generate_fuzzy now).1 =
      { st with counter := 0, last_time := now + 1 } := by
    unfold SnowflakeGenerator.generate_fuzzy
    simp [if_pos hnow, hc]
  have hout : (st.generate_fuzzy now).2 =
      ({ st with counter := 0, last_time := now + 1 } :
        SnowflakeGenerator).output := by
    unfold SnowflakeGenerator.generate_fuzzy
    simp [if_pos hnow, hc]
  refine ⟨by rw [hstep], ?_, fun h => by rw [hstep]; dsimp only; omega⟩
  rw [hout, SnowflakeGenerator.output_eq_add _ (by simpa using hm)
    (by simpa using hth) (by norm_num), Snowflake.fromU64_eq]
  dsimp only
  omega

theorem generate_fuzzy_wrap_witness :
    (SnowflakeGenerator.generate_fuzzy ⟨7, 1, 2, 4095⟩ 7).1.last_time
      = 7 + 1 ∧
    (Snowflake.fromU64
      (SnowflakeGenerator.generate_fuzzy ⟨7, 1, 2, 4095⟩ 7).2).time =
      (7 + 1) % 2 ^ 42 ∧
    (7 = 7 → (SnowflakeGenerator.generate_fuzzy ⟨7, 1, 2, 4095⟩ 7).1.last_time
      = 7 + 1) :=
  generate_fuzzy_wrap ⟨7, 1, 2, 4095⟩ 7 (by decide) (by decide) (by decide)
    (by decide)

/-- C4 counterexample: a clock reading that goes backward relative to
last_time makes last_time decrease, for both operations: from
last_time = 100 with reading 50, both store last_time = 50. -/
theorem last_time_mono_counterexample :
    (SnowflakeGenerator.generate_fuzzy ⟨100, 0, 0, 0⟩ 50).1.last_time
      < 100 ∧
    (SnowflakeGenerator.generate ⟨100, 0, 0, 0⟩ 50 50).1.last_time
      < 100 := by
  decide

/-- C4 amended: last_time is non-decreasing across a generate call and
across a generate_fuzzy call provided the call's clock reading is at
least the current last_time (with the busy-wait exit reading exceeding
it, which is the loop's exit condition); a reading strictly earlier than
last_time overwrites last_time with an earlier value instead. -/
theorem last_time_mono (st : SnowflakeGenerator) (now later : Nat)
    (hnow : st.last_time ≤ now) (hlater : st.last_time < later) :
    st.last_time ≤ (st.generate now later).1.last_time ∧
    st.last_time ≤ (st.generate_fuzzy now).1.last_time := by
  unfold SnowflakeGenerator.generate SnowflakeGenerator.generate_fuzzy
  dsimp only
  constructor
  · split_ifs <;> dsimp only <;> omega
  · split_ifs <;> dsimp only <;> omega

theorem last_time_mono_witness :
    (5 : Nat) ≤ (SnowflakeGenerator.generate ⟨5, 0, 0, 0⟩ 5 6).1.last_time ∧
    (5 : Nat) ≤ (SnowflakeGenerator.generate_fuzzy ⟨5, 0, 0, 0⟩ 5).1.last_time :=
  last_time_mono ⟨5, 0, 0, 0⟩ 5 6 (by decide) (by decide)

/-! ## Single-step facts shared by the uniqueness claims -/

theorem output_mk_eq (L m th c : Nat) (hm : m < 32) (hth : th < 32)
    (hc : c < 4096) :
    SnowflakeGenerator.output ⟨L, m, th, c⟩ =
      L % 2 ^ 42 * 2 ^ 22 + m * 2 ^ 17 + th * 2 ^ 12 + c := by
  simpa using SnowflakeGenerator.output_eq_add ⟨L, m, th, c⟩ hm hth hc

/-- Any single call preserves machine_id and thread_id, leaves the
counter below 4096, and returns the packed form of its updated state. -/
theorem step_state (st : SnowflakeGenerator) (op : GenCall) :
    (st.step op).1.machine_id = st.machine_id ∧
    (st.step op).1.thread_id = st.thread_id ∧
    (st.step op).1.counter < 4096 ∧
    (st.step op).2 = (st.step op).1.output := by
  cases op <;>
    (unfold SnowflakeGenerator.step SnowflakeGenerator.generate
      SnowflakeGenerator.generate_fuzzy
     dsimp only
     split_ifs <;> exact ⟨rfl, rfl, by dsimp only; omega, rfl⟩)

/-- The second of two consecutive calls either bumps the counter
(mod 4096) or resets it to 0 while moving last_time to a fresh value
below `2 ^ 42`. -/
theorem step_changes (st : SnowflakeGenerator) (op : GenCall)
    (hc : st.counter < 4096) (h : op.readingsBelow (2 ^ 42))
    (hL : st.last_time < 2 ^ 42) :
    (st.step op).1.counter = (st.counter + 1) % 4096 ∨
    ((st.step op).1.counter = 0 ∧ (st.step op).1.last_time < 2 ^ 42 ∧
      (st.step op).1.last_time ≠ st.last_time) := by
  cases op with
  | blocking now later =>
    simp only [GenCall.readingsBelow] at h
    unfold SnowflakeGenerator.step SnowflakeGenerator.generate
    dsimp only
    split_ifs with h1 h2
    · exact .inl rfl
    · exact .inl rfl
    · refine .inr ⟨rfl, ?_, ?_⟩ <;> dsimp only <;> omega
  | fuzzy now =>
    simp only [GenCall.readingsBelow] at h
    unfold SnowflakeGenerator.step SnowflakeGenerator.generate_fuzzy
    dsimp only
    split_ifs with h1 h2
    · exact .inl rfl
    · exact .inl rfl
    · refine .inr ⟨rfl, ?_, ?_⟩ <;> dsimp only <;> omega

/-- C1 counterexample: a reachable state (counter 4095,
last_time = 2^42 - 1) and two in-range readings on which two
consecutive calls return the same 64-bit value: the fuzzy wrap
synthesizes timestamp 2^42, whose 22-bit left shift wraps to 0 mod
2^64, and the next blocking call at reading 0 returns the same ID. -/
theorem consecutive_distinct_counterexample :
    (⟨2 ^ 42 - 1, 0, 0, 4095⟩ : SnowflakeGenerator).counter ≤ 4095 ∧
    (⟨2 ^ 42 - 1, 0, 0, 4095⟩ : SnowflakeGenerator).last_time < 2 ^ 42 ∧
    (GenCall.fuzzy (2 ^ 42 - 1)).readingsBelow (2 ^ 42) ∧
    (GenCall.blocking 0 1).readingsBelow (2 ^ 42) ∧
    (((⟨2 ^ 42 - 1, 0, 0, 4095⟩ : SnowflakeGenerator).step
        (.fuzzy (2 ^ 42 - 1))).1.step (.blocking 0 1)).2 =
      ((⟨2 ^ 42 - 1, 0, 0, 4095⟩ : SnowflakeGenerator).step
        (.fuzzy (2 ^ 42 - 1))).2 := by
  decide

/-- C1 amended: from a reachable state (counter in [0,4095],
last_time < 2^42) and readings below 2^42, two consecutive calls in any
combination of generate and generate_fuzzy return different values,
provided the state after the first call still has last_time < 2^42
(which excludes only the corner where generate_fuzzy wraps the counter
at last_time = 2^42 - 1 and synthesizes the out-of-range timestamp
2^42). -/
theorem consecutive_distinct (st : SnowflakeGenerator) (op1 op2 : GenCall)
    (hm : st.machine_id < 32) (hth : st.thread_id < 32)
    (hc : st.counter ≤ 4095) (hL : st.last_time < 2 ^ 42)
    (h1 : op1.readingsBelow (2 ^ 42)) (h2 : op2.readingsBelow (2 ^ 42))
    (hmid : (st.step op1).1.last_time < 2 ^ 42) :
    ((st.step op1).1.step op2).2 ≠ (st.step op1).2 := by
  obtain ⟨hm1, hth1, hc1, hout1⟩ := step_state st op1
  obtain ⟨hm2, hth2, hc2, hout2⟩ := step_state (st.step op1).1 op2
  have hch := step_changes (st.step op1).1 op2 hc1 h2 hmid
  have e1 := SnowflakeGenerator.output_eq_add (st.step op1).1
    (by omega) (by omega) hc1
  have e2 := SnowflakeGenerator.output_eq_add ((st.step op1).1.step op2).1
    (by omega) (by omega) hc2
  rw [hout1, hout2, e1, e2, hm2, hth2]
  intro heq
  rcases hch with hcount | ⟨hz, hlt2, hne⟩
  · omega
  · omega

theorem consecutive_distinct_witness :
    (GenCall.fuzzy 0).readingsBelow (2 ^ 42) ∧
    ((((⟨0, 0, 0, 0⟩ : SnowflakeGenerator).step (.fuzzy 0)).1.step
        (.fuzzy 0)).2 ≠
      ((⟨0, 0, 0, 0⟩ : SnowflakeGenerator).step (.fuzzy 0)).2) :=
  ⟨by decide,
    consecutive_distinct ⟨0, 0, 0, 0⟩ (.fuzzy 0) (.fuzzy 0) (by decide)
      (by decide) (by decide) (by decide) (by decide) (by decide)
      (by decide)⟩

/-- C6: IDs from two instances whose in-range (machine_id, thread_id)
pairs differ never collide, whatever the clock readings and whatever
states the instances have reached. -/
theorem distinct_instances (st1 st2 : SnowflakeGenerator)
    (op1 op2 : GenCall)
    (hm1 : st1.machine_id < 32) (hth1 : st1.thread_id < 32)
    (hm2 : st2.machine_id < 32) (hth2 : st2.thread_id < 32)
    (hne : st1.machine_id ≠ st2.machine_id ∨
      st1.thread_id ≠ st2.thread_id) :
    (st1.step op1).2 ≠ (st2.step op2).2 := by
  obtain ⟨ha1, hb1, hc1, ho1⟩ := step_state st1 op1
  obtain ⟨ha2, hb2, hc2, ho2⟩ := step_state st2 op2
  have e1 := SnowflakeGenerator.output_eq_add (st1.step op1).1
    (by omega) (by omega) hc1
  have e2 := SnowflakeGenerator.output_eq_add (st2.step op2).1
    (by omega) (by omega) hc2
  rw [ho1, ho2, e1, e2, ha1, hb1, ha2, hb2]
  intro heq
  rcases hne with hne | hne
  · omega
  · omega

theorem distinct_instances_witness :
    ((⟨0, 0, 0, 0⟩ : SnowflakeGenerator).step (.fuzzy 0)).2 ≠
      ((⟨0, 0, 1, 0⟩ : SnowflakeGenerator).step (.fuzzy 0)).2 :=
  distinct_instances ⟨0, 0, 0, 0⟩ ⟨0, 0, 1, 0⟩ (.fuzzy 0) (.fuzzy 0)
    (by decide) (by decide) (by decide) (by decide) (.inr (by decide))

/-! ## Sequences of blocking calls -/

/-- Run a sequence of `generate` calls; each list entry carries that
call's first clock reading and its busy-wait exit reading. -/
def runGenerate (st : SnowflakeGenerator) : List (Nat × Nat) → List Nat
  | [] => []
  | (now, later) :: rest =>
    (st.generate now later).2 :: runGenerate (st.generate now later).1 rest

/-- The readings of a run come from the monotonic (non-decreasing) time
source the spec assumes and stay below `2 ^ 42`: each call's first
reading is no earlier than the reading that produced the current
last_time, the busy-wait readings only move forward, and when the loop
actually runs (counter wrap) its exit reading strictly exceeds the
last_time it was polled against — the loop's exit condition. -/
def ValidRun : SnowflakeGenerator → List (Nat × Nat) → Prop
  | _, [] => True
  | st, (now, later) :: rest =>
    st.last_time ≤ now ∧ now ≤ later ∧ later < 2 ^ 42 ∧
    (now = st.last_time → (st.counter + 1) % 4096 = 0 → now < later) ∧
    ValidRun (st.generate now later).1 rest

instance ValidRun.dec : ∀ st rs, Decidable (ValidRun st rs)
  | _, [] => .isTrue trivial
  | st, (now, later) :: rest =>
    haveI := ValidRun.dec (st.generate now later).1 rest
    inferInstanceAs (Decidable (_ ∧ _ ∧ _ ∧ _ ∧ _))

/-- One blocking call under a monotone clock: the new ID is strictly
larger than the previous one and the state invariants persist. -/
theorem generate_sound (st : SnowflakeGenerator) (now later : Nat)
    (hm : st.machine_id < 32) (hth : st.thread_id < 32)
    (hc : st.counter < 4096) (hL : st.last_time < 2 ^ 42)
    (hnow : st.last_time ≤ now) (hnl : now ≤ later) (hlt : later < 2 ^ 42)
    (hwrap : now = st.last_time → (st.counter + 1) % 4096 = 0 →
      now < later) :
    st.output < (st.generate now later).1.output ∧
    (st.generate now later).1.machine_id = st.machine_id ∧
    (st.generate now later).1.thread_id = st.thread_id ∧
    (st.generate now later).1.counter < 4096 ∧
    (st.generate now later).1.last_time < 2 ^ 42 ∧
    (st.generate now later).2 = (st.generate now later).1.output := by
  unfold SnowflakeGenerator.generate
  dsimp only
  split_ifs with h1 h2
  · have hlater : now < later := hwrap h1 h2
    refine ⟨?_, rfl, rfl, by dsimp only; omega, by dsimp only; omega, rfl⟩
    rw [SnowflakeGenerator.output_eq_add st hm hth hc, output_mk_eq _ _ _ _
      hm hth (by omega)]
    omega
  · refine ⟨?_, rfl, rfl, by dsimp only; omega, by dsimp only; omega, rfl⟩
    rw [SnowflakeGenerator.output_eq_add st hm hth hc, output_mk_eq _ _ _ _
      hm hth (by omega)]
    omega
  · refine ⟨?_, rfl, rfl, by dsimp only; omega, by dsimp only; omega, rfl⟩
    rw [SnowflakeGenerator.output_eq_add st hm hth hc, output_mk_eq _ _ _ _
      hm hth (by omega)]
    omega

theorem runGenerate_chain (rs : List (Nat × Nat)) :
    ∀ st : SnowflakeGenerator, st.machine_id < 32 → st.thread_id < 32 →
    st.counter < 4096 → st.last_time < 2 ^ 42 → ValidRun st rs →
    List.Chain' (· < ·) (st.output :: runGenerate st rs) := by
  induction rs with
  | nil =>
    intro st _ _ _ _ _
    simp [runGenerate]
  | cons p rest ih =>
    obtain ⟨now, later⟩ := p
    intro st hm hth hc hL hv
    simp only [ValidRun] at hv
    obtain ⟨h1, h2, h3, h4, h5⟩ := hv
    obtain ⟨hlt, hm', hth', hc', hL', hout⟩ :=
      generate_sound st now later hm hth hc hL h1 h2 h3 h4
    have htail := ih (st.generate now later).1 (by omega) (by omega) hc'
      hL' h5
    simp only [runGenerate]
    rw [hout]
    exact List.chain'_cons.mpr ⟨hlt, htail⟩

/-- C3: under the monotonic time source the spec assumes (readings
non-decreasing, all below `2 ^ 42`), every sequence of `generate` calls
on one instance returns strictly increasing IDs — hence pairwise
distinct and already sorted. -/
theorem runGenerate_pairwise (st : SnowflakeGenerator)
    (rs : List (Nat × Nat)) (hm : st.machine_id < 32)
    (hth : st.thread_id < 32) (hc : st.counter ≤ 4095)
    (hL : st.last_time < 2 ^ 42) (hv : ValidRun st rs) :
    List.Pairwise (· < ·) (runGenerate st rs) := by
  have hchain := runGenerate_chain rs st hm hth (by omega) hL hv
  have hp := List.chain'_iff_pairwise.mp hchain
  exact (List.pairwise_cons.mp hp).2

theorem runGenerate_pairwise_witness :
    ValidRun ⟨0, 0, 0, 0⟩ [(0, 0), (0, 1), (1, 1)] ∧
    List.Pairwise (· < ·)
      (runGenerate ⟨0, 0, 0, 0⟩ [(0, 0), (0, 1), (1, 1)]) :=
  ⟨by decide,
    runGenerate_pairwise ⟨0, 0, 0, 0⟩ [(0, 0), (0, 1), (1, 1)] (by decide)
      (by decide) (by decide) (by decide) (by decide)⟩
